import Mathlib

/-!
Verification of the nested-error scanner and validation pipeline of the
graphql-validation-tool repository.

The Go sources are embedded shallowly:
* `Json` models the decoded JSON value tree (`interface{}` after
  `json.Unmarshal`); JSON numbers are modelled as integers.
* `collectErrors` embeds `collectErrors` from the validate command
  (src/unnamed/part_001), together with its helpers for the `"errors"`
  array rule and the `"error"` key rule.
* `checkForErrors` / `hasNestedErrors` embed the boolean scanner from
  `main.go`.
* `validateSingleQuery`, `validateQueries`, exit-code computations embed
  the runner and reporting glue, with I/O outcomes passed as explicit
  parameters.
-/

/-- Decoded JSON value: the `interface{}` tree produced by `json.Unmarshal`.
Objects are association lists in map-iteration order; numbers are modelled
as integers. -/
inductive Json where
  | null
  | bool (b : Bool)
  | num (n : Int)
  | str (s : String)
  | arr (xs : List Json)
  | obj (kvs : List (String × Json))

/-- Go map access `v[k]`: find the value bound to key `k`. -/
def lookup (k : String) : List (String × Json) → Option Json
  | [] => none
  | kv :: rest => if kv.1 = k then some kv.2 else lookup k rest

/-- `location := path; if location == "" { location = "root" }`. -/
def rootLoc (path : String) : String :=
  if path = "" then "root" else path

/-- Path extension for a mapping key:
`newPath := key; if path != "" { newPath = path + "." + key }`. -/
def childPath (path key : String) : String :=
  if path = "" then key else path ++ "." ++ key

/-- Insert a rendered key/value pair into a key-sorted list
(part of Go `fmt`'s sorted map printing). -/
def insertPair (kv : String × String) : List (String × String) → List (String × String)
  | [] => [kv]
  | kv' :: rest =>
      if kv.1 < kv'.1 then kv :: kv' :: rest else kv' :: insertPair kv rest

/-- Sort rendered key/value pairs by key (Go `fmt` prints map keys sorted). -/
def sortPairs : List (String × String) → List (String × String)
  | [] => []
  | kv :: rest => insertPair kv (sortPairs rest)

mutual

/-- Go `fmt.Sprintf("%v", e)` default rendering of a decoded JSON value:
`<nil>` for null, bare booleans and numbers, raw strings,
space-separated bracketed slices, and `map[k1:v1 k2:v2]` with keys sorted. -/
def goRender : Json → String
  | .null => "<nil>"
  | .bool b => if b then "true" else "false"
  | .num n => toString n
  | .str s => s
  | .arr xs => "[" ++ String.intercalate " " (renderElems xs) ++ "]"
  | .obj kvs =>
      "map[" ++ String.intercalate " "
        ((sortPairs (renderPairs kvs)).map (fun kv => kv.1 ++ ":" ++ kv.2)) ++ "]"

/-- Render every element of a slice. -/
def renderElems : List Json → List String
  | [] => []
  | x :: xs => goRender x :: renderElems xs

/-- Render every value of a map, keeping its key. -/
def renderPairs : List (String × Json) → List (String × String)
  | [] => []
  | kv :: rest => (kv.1, goRender kv.2) :: renderPairs rest

end

/-- The per-element loop of the `"errors"` rule in `collectErrors`
(`for i, e := range errArray`): an element that is a mapping with a
string-valued `"message"` emits `Error at <loc>[<i>]: <message>` with the
root-substituted location; a mapping without one emits
`Error at <path>[<i>]: <%v rendering>` with the raw path;
a non-mapping element emits nothing. -/
def errorsElems (path : String) : Nat → List Json → List String
  | _, [] => []
  | i, e :: rest =>
      (match e with
       | .obj em =>
           match lookup "message" em with
           | some (.str msg) =>
               ["Error at " ++ rootLoc path ++ "[" ++ toString i ++ "]: " ++ msg]
           | _ =>
               ["Error at " ++ path ++ "[" ++ toString i ++ "]: " ++ goRender (.obj em)]
       | _ => []) ++ errorsElems path (i + 1) rest

/-- The `"errors"` rule of `collectErrors`: fires only when the key's value
is a non-nil, non-empty array. -/
def errorsFindings (path : String) : Option Json → List String
  | some (.arr es) => if es.isEmpty then [] else errorsElems path 0 es
  | _ => []

/-- The `"error"` rule of `collectErrors`: a non-empty string emits
`Error at <loc>: <string>`, a mapping with a string-valued `"message"`
emits `Error at <loc>: <message>`, anything else emits nothing. -/
def errorFindings (path : String) : Option Json → List String
  | some (.str s) =>
      if s = "" then [] else ["Error at " ++ rootLoc path ++ ": " ++ s]
  | some (.obj em) =>
      match lookup "message" em with
      | some (.str msg) => ["Error at " ++ rootLoc path ++ ": " ++ msg]
      | _ => []
  | _ => []

mutual

/-- `collectErrors` from the validate command: on a mapping, apply the
`"errors"` rule, then the `"error"` rule, then recurse into every key in
map order; on an array, recurse into every element with `[<i>]` appended
to the path; scalars and null produce nothing. -/
def collectErrors : Json → String → List String
  | .obj kvs, path =>
      errorsFindings path (lookup "errors" kvs)
        ++ errorFindings path (lookup "error" kvs)
        ++ collectObj kvs path
  | .arr xs, path => collectArr xs path 0
  | _, _ => []

/-- The `for key, value := range v` recursion of `collectErrors`. -/
def collectObj : List (String × Json) → String → List String
  | [], _ => []
  | kv :: rest, path =>
      collectErrors kv.2 (childPath path kv.1) ++ collectObj rest path

/-- The `for i, item := range v` recursion of `collectErrors`. -/
def collectArr : List Json → String → Nat → List String
  | [], _, _ => []
  | x :: rest, path, i =>
      collectErrors x (path ++ "[" ++ toString i ++ "]") ++ collectArr rest path (i + 1)

end

/-- `errorVal != nil && errorVal != ""` on an `interface{}` value:
false exactly for JSON null and the empty string. -/
def errorTruthy : Json → Bool
  | .null => false
  | .str s => !(s == "")
  | _ => true

/-- `if errors, ok := v["errors"]; ok { if errors != nil { return true } }`. -/
def errorsKeyTrig (kvs : List (String × Json)) : Bool :=
  match lookup "errors" kvs with
  | some Json.null => false
  | some _ => true
  | none => false

/-- `if errorVal, ok := v["error"]; ok { if errorVal != nil && errorVal != "" ... }`. -/
def errorKeyTrig (kvs : List (String × Json)) : Bool :=
  match lookup "error" kvs with
  | some v => errorTruthy v
  | none => false

mutual

/-- `checkForErrors` from `main.go`: true if a mapping has an `"errors"`
key with a non-nil value, or an `"error"` key that is neither nil nor the
empty string, or any nested value triggers; arrays check all elements;
scalars are false. -/
def checkForErrors : Json → Bool
  | .obj kvs => errorsKeyTrig kvs || errorKeyTrig kvs || checkObjAny kvs
  | .arr xs => checkArrAny xs
  | _ => false

/-- The map-recursion loop of `checkForErrors`. -/
def checkObjAny : List (String × Json) → Bool
  | [] => false
  | kv :: rest => checkForErrors kv.2 || checkObjAny rest

/-- The array-recursion loop of `checkForErrors`. -/
def checkArrAny : List Json → Bool
  | [] => false
  | x :: rest => checkForErrors x || checkArrAny rest

end

/-- A raw response payload (`json.RawMessage` / `[]byte`): empty bytes,
bytes that fail to unmarshal, or bytes decoding to a JSON value. -/
inductive RawJson where
  | empty
  | malformed
  | value (j : Json)

/-- `findNestedErrors` from the validate command: empty or undecodable
payloads yield no findings; otherwise the decoded value is scanned by
`collectErrors` starting at the empty path. -/
def findNestedErrors : RawJson → List String
  | .empty => []
  | .malformed => []
  | .value j => collectErrors j ""

/-- `hasNestedErrors` from `main.go`: empty payloads are false; the payload
is unmarshalled into `map[string]interface{}`, which fails (returning
false) unless the top-level value is an object; otherwise `checkForErrors`
runs on it. -/
def hasNestedErrors : RawJson → Bool
  | .value (.obj kvs) => checkForErrors (.obj kvs)
  | _ => false

/-- Per-query result (`TestResult` in the validate command): name, path,
pass flag, accumulated error messages, duration in milliseconds. -/
structure TestResult where
  name : String
  path : String
  passed : Bool
  errors : List String
  duration : Int

/-- `validateSingleQuery`: the file reads and the engine call are passed in
as explicit outcomes. A failed query-file read or variables-file read
returns early with that single message; otherwise the execution error (if
any), the engine's structured error messages, and the nested findings of
the response data are accumulated in that order, and the query passes
exactly when the accumulated list is empty. -/
def validateSingleQuery (name qpath : String) (dur : Int)
    (readErr varsErr : Option String) (execErr : Option String)
    (res : Option (List String × RawJson)) : TestResult :=
  match readErr with
  | some m =>
      { name := name, path := qpath, passed := false,
        errors := ["Failed to read query file: " ++ m], duration := dur }
  | none =>
    match varsErr with
    | some m =>
        { name := name, path := qpath, passed := false,
          errors := ["Failed to read variables file: " ++ m], duration := dur }
    | none =>
      let execMsgs := match execErr with
        | some m => ["Execution error: " ++ m]
        | none => []
      let gqlMsgs := match res with
        | some (errs, _) => errs
        | none => []
      let nestedMsgs := match res with
        | some (_, d) => findNestedErrors d
        | none => []
      let allMsgs := execMsgs ++ gqlMsgs ++ nestedMsgs
      { name := name, path := qpath, passed := allMsgs.isEmpty,
        errors := allMsgs, duration := dur }

/-- Overall validation results (`ValidationSummary`). -/
structure ValidationSummary where
  total : Nat
  passed : Nat
  failed : Nat
  results : List TestResult

/-- The `for _, qf := range queryFiles` loop of `validateQueries`:
append each result, bump the matching counter, and `break` after the
first failure when fail-fast is set. Per-file outcomes are supplied by
`eval`. -/
def validateLoop (eval : String → TestResult) (failFast : Bool) :
    List String → ValidationSummary → ValidationSummary
  | [], s => s
  | qf :: rest, s =>
      let r := eval qf
      let s' := { s with results := s.results ++ [r] }
      if r.passed then
        validateLoop eval failFast rest { s' with passed := s'.passed + 1 }
      else
        let s'' := { s' with failed := s'.failed + 1 }
        if failFast then s'' else validateLoop eval failFast rest s''

/-- `validateQueries`: the summary starts with `Total` set to the number
of query files and empty counters, then runs the loop. -/
def validateQueries (eval : String → TestResult) (queryFiles : List String)
    (failFast : Bool) : ValidationSummary :=
  validateLoop eval failFast queryFiles
    { total := queryFiles.length, passed := 0, failed := 0, results := [] }

/-- Number of results whose `Passed` flag is set. -/
def countPassed (rs : List TestResult) : Nat :=
  (rs.filter (fun r => r.passed)).length

/-- Number of results whose `Passed` flag is clear. -/
def countFailed (rs : List TestResult) : Nat :=
  (rs.filter (fun r => !r.passed)).length

/-- The exit-code loop of `main.go`: `exitCode := 0`, set to `1` and break
at the first result that did not pass. -/
def computeExitCode : List TestResult → Nat
  | [] => 0
  | r :: rest => if !r.passed then 1 else computeExitCode rest

/-- `runValidate`'s terminal step: return an error exactly when
`results.Failed > 0`. -/
def runValidateErr (s : ValidationSummary) : Option String :=
  if s.failed > 0 then some (toString s.failed ++ " validation(s) failed") else none

/-- `Execute` from the root command: exit 1 when the command returned an
error, otherwise fall through to a normal exit 0. -/
def executeExit : Option String → Nat
  | some _ => 1
  | none => 0

/-- Setup phase of `runValidate` before any query is attempted:
configuration load, configuration validation, and GraphJin/database
initialization can each fail with an error message. -/
inductive RunSetup where
  | configLoadFailed (msg : String)
  | configInvalid (msg : String)
  | dbInitFailed (msg : String)
  | ready

/-- `runValidate` as seen by `Execute`: setup failures return wrapped
errors before any query runs; otherwise the summary decides. -/
def runValidateOutcome : RunSetup → ValidationSummary → Option String
  | .configLoadFailed m, _ => some ("failed to load config: " ++ m)
  | .configInvalid m, _ => some ("invalid configuration: " ++ m)
  | .dbInitFailed m, _ => some ("failed to initialize GraphJin: " ++ m)
  | .ready, s => runValidateErr s

theorem countPassed_append_single (rs : List TestResult) (r : TestResult) :
    countPassed (rs ++ [r]) = countPassed rs + (if r.passed then 1 else 0) := by
  simp [countPassed, List.filter_append]
  cases h : r.passed <;> simp [h]

theorem countFailed_append_single (rs : List TestResult) (r : TestResult) :
    countFailed (rs ++ [r]) = countFailed rs + (if r.passed then 0 else 1) := by
  simp [countFailed, List.filter_append]
  cases h : r.passed <;> simp [h]

theorem countPassed_add_countFailed (rs : List TestResult) :
    countPassed rs + countFailed rs = rs.length := by
  induction rs with
  | nil => rfl
  | cons r rest ih =>
      cases h : r.passed <;>
        simp [countPassed, countFailed, List.filter_cons, h] at ih ⊢ <;> omega

theorem validateLoop_total (eval : String → TestResult) (ff : Bool) :
    ∀ (files : List String) (s : ValidationSummary),
      (validateLoop eval ff files s).total = s.total := by
  intro files
  induction files with
  | nil => intro s; rfl
  | cons qf rest ih =>
      intro s
      simp only [validateLoop]
      split
      · exact ih _
      · split
        · rfl
        · exact ih _

theorem validateLoop_counts (eval : String → TestResult) (ff : Bool) :
    ∀ (files : List String) (s : ValidationSummary),
      s.passed = countPassed s.results → s.failed = countFailed s.results →
      (validateLoop eval ff files s).passed
          = countPassed (validateLoop eval ff files s).results ∧
        (validateLoop eval ff files s).failed
          = countFailed (validateLoop eval ff files s).results := by
  intro files
  induction files with
  | nil => intro s hp hf; exact ⟨hp, hf⟩
  | cons qf rest ih =>
      intro s hp hf
      simp only [validateLoop]
      split
      · rename_i hpass
        refine ih _ ?_ ?_ <;>
          simp [countPassed_append_single, countFailed_append_single, hpass, hp, hf]
      · rename_i hpass
        have hpb : (eval qf).passed = false := by
          cases h : (eval qf).passed
          · rfl
          · exact absurd h hpass
        have hp' : countPassed (s.results ++ [eval qf]) = s.passed := by
          simp [countPassed_append_single, hp, hpb]
        have hf' : countFailed (s.results ++ [eval qf]) = s.failed + 1 := by
          simp [countFailed_append_single, hf, hpb]
        split
        · exact ⟨hp'.symm, hf'.symm⟩
        · exact ih _ hp'.symm hf'.symm

theorem validateLoop_length_noFF (eval : String → TestResult) :
    ∀ (files : List String) (s : ValidationSummary),
      (validateLoop eval false files s).results.length
        = s.results.length + files.length := by
  intro files
  induction files with
  | nil => intro s; simp [validateLoop]
  | cons qf rest ih =>
      intro s
      simp only [validateLoop]
      split <;> (simp [ih]; omega)

theorem computeExitCode_zero_iff (rs : List TestResult) :
    computeExitCode rs = 0 ↔ countFailed rs = 0 := by
  induction rs with
  | nil => simp [computeExitCode, countFailed]
  | cons r rest ih =>
      cases h : r.passed
      · simp [computeExitCode, countFailed, List.filter_cons, h]
      · simp [computeExitCode, countFailed, List.filter_cons, h] at ih ⊢
        simpa [countFailed] using ih

theorem computeExitCode_zero_or_one (rs : List TestResult) :
    computeExitCode rs = 0 ∨ computeExitCode rs = 1 := by
  induction rs with
  | nil => exact Or.inl rfl
  | cons r rest ih =>
      by_cases h : r.passed = true <;> simp [computeExitCode, h, ih]

/-- C10: for every summary produced by `validateQueries` — under either
setting of fail-fast — the `Passed` counter equals the number of collected
results with `Passed` true, the `Failed` counter equals the number with
`Passed` false, and their sum is the number of collected results. -/
theorem validateQueries_counters_match_results :
    ∀ (eval : String → TestResult) (files : List String) (ff : Bool),
      (validateQueries eval files ff).passed
          = countPassed (validateQueries eval files ff).results ∧
      (validateQueries eval files ff).failed
          = countFailed (validateQueries eval files ff).results ∧
      (validateQueries eval files ff).passed + (validateQueries eval files ff).failed
          = (validateQueries eval files ff).results.length := by
  intro eval files ff
  have h := validateLoop_counts eval ff files
    { total := files.length, passed := 0, failed := 0, results := [] } rfl rfl
  simp only [validateQueries] at *
  exact ⟨h.1, h.2, by rw [h.1, h.2, countPassed_add_countFailed]⟩

/-- A per-file outcome that fails (used to instantiate counterexamples and
witnesses): one execution-error message, `Passed` false. -/
def failResult : TestResult :=
  { name := "q.graphql", path := "queries/q.graphql", passed := false,
    errors := ["Execution error: boom"], duration := 0 }

/-- Per-file evaluation in which every query file fails. -/
def failEval : String → TestResult := fun _ => failResult

/-- C4 counterexample: with fail-fast set and two query files whose first
fails, `validateQueries` stops after one result, so
`passed + failed = 1 = len(Results)` while `Total` stays `2`; the claimed
invariant `passed + failed == total == len(Results)` is violated. -/
theorem validateQueries_failFast_total_mismatch :
    (validateQueries failEval ["q1.graphql", "q2.graphql"] true).passed
        + (validateQueries failEval ["q1.graphql", "q2.graphql"] true).failed
      ≠ (validateQueries failEval ["q1.graphql", "q2.graphql"] true).total ∧
    (validateQueries failEval ["q1.graphql", "q2.graphql"] true).results.length
      ≠ (validateQueries failEval ["q1.graphql", "q2.graphql"] true).total := by
  decide

/-- C4 (amended): for every summary returned by `validateQueries`,
`passed + failed = len(Results)` and `total = len(queryFiles)` always
hold, and when fail-fast is off the full claimed invariant
`passed + failed = total = len(Results)` holds. -/
theorem validateQueries_summary_invariant :
    ∀ (eval : String → TestResult) (files : List String) (ff : Bool),
      (validateQueries eval files ff).passed + (validateQueries eval files ff).failed
          = (validateQueries eval files ff).results.length ∧
      (validateQueries eval files ff).total = files.length ∧
      (ff = false →
        (validateQueries eval files ff).passed + (validateQueries eval files ff).failed
            = (validateQueries eval files ff).total ∧
        (validateQueries eval files ff).results.length
            = (validateQueries eval files ff).total) := by
  intro eval files ff
  have h := validateLoop_counts eval ff files
    { total := files.length, passed := 0, failed := 0, results := [] } rfl rfl
  have htot := validateLoop_total eval ff files
    { total := files.length, passed := 0, failed := 0, results := [] }
  have hsum : (validateQueries eval files ff).passed
      + (validateQueries eval files ff).failed
      = (validateQueries eval files ff).results.length := by
    simp only [validateQueries] at *
    rw [h.1, h.2, countPassed_add_countFailed]
  refine ⟨hsum, htot, ?_⟩
  rintro rfl
  have hlen := validateLoop_length_noFF eval files
    { total := files.length, passed := 0, failed := 0, results := [] }
  simp only [validateQueries] at *
  constructor
  · rw [hsum, htot, hlen]; simp
  · rw [htot, hlen]; simp

/-- C4 witness: with fail-fast off, the amended invariant instantiates to
a concrete run where `passed + failed = total`. -/
theorem validateQueries_summary_invariant_witness :
    (validateQueries failEval ["q1.graphql"] false).passed
        + (validateQueries failEval ["q1.graphql"] false).failed
      = (validateQueries failEval ["q1.graphql"] false).total :=
  ((validateQueries_summary_invariant failEval ["q1.graphql"] false).2.2 rfl).1

/-- C5: for every query-file outcome built by `validateSingleQuery` —
whatever combination of read failures, execution error, structured engine
errors and nested data findings contributed — `Passed` is true exactly
when the accumulated `Errors` list is empty. -/
theorem validateSingleQuery_passed_iff_no_errors :
    ∀ (name qpath : String) (dur : Int) (readErr varsErr execErr : Option String)
      (res : Option (List String × RawJson)),
      (validateSingleQuery name qpath dur readErr varsErr execErr res).passed = true
        ↔ (validateSingleQuery name qpath dur readErr varsErr execErr res).errors = [] := by
  intro name qpath dur readErr varsErr execErr res
  cases readErr <;> cases varsErr <;> simp [validateSingleQuery]

/-- C6: the validation-path exit code is `0` exactly when no result
failed and `1` as soon as one result failed, both in `main.go`'s exit
loop and in the `runValidate`/`Execute` path of the validate command. -/
theorem exit_code_zero_iff_no_failures :
    ∀ (rs : List TestResult) (s : ValidationSummary),
      (computeExitCode rs = 0 ↔ countFailed rs = 0) ∧
      (0 < countFailed rs → computeExitCode rs = 1) ∧
      (executeExit (runValidateErr s) = 0 ↔ s.failed = 0) ∧
      (0 < s.failed → executeExit (runValidateErr s) = 1) := by
  intro rs s
  refine ⟨computeExitCode_zero_iff rs, ?_, ?_, ?_⟩
  · intro h
    rcases computeExitCode_zero_or_one rs with h0 | h1
    · exact absurd ((computeExitCode_zero_iff rs).mp h0) (by omega)
    · exact h1
  · by_cases h : s.failed > 0 <;> simp [runValidateErr, executeExit, h] <;> omega
  · intro h
    simp [runValidateErr, executeExit, h]

/-- A summary with a single failing result (used in witnesses). -/
def oneFailSummary : ValidationSummary :=
  { total := 1, passed := 0, failed := 1, results := [failResult] }

/-- C6 witness: a run with one failing result exits with code `1` on both
paths. -/
theorem exit_code_zero_iff_no_failures_witness :
    computeExitCode [failResult] = 1 ∧
      executeExit (runValidateErr oneFailSummary) = 1 :=
  ⟨(exit_code_zero_iff_no_failures [failResult] oneFailSummary).2.1 (by decide),
   (exit_code_zero_iff_no_failures [failResult] oneFailSummary).2.2.2 (by decide)⟩

/-- C3: falsy error indicators produce no finding: the `"error"` rule
emits nothing for the empty string or null, the `"errors"` rule emits
nothing for an empty array, and scanning `{"error": ""}`,
`{"error": null}` and `{"errors": []}` each yields the empty list. -/
theorem falsy_indicators_yield_no_findings :
    (∀ path, errorFindings path (some (.str "")) = []) ∧
    (∀ path, errorFindings path (some .null) = []) ∧
    (∀ path, errorsFindings path (some (.arr [])) = []) ∧
    collectErrors (.obj [("error", .str "")]) "" = [] ∧
    collectErrors (.obj [("error", .null)]) "" = [] ∧
    collectErrors (.obj [("errors", .arr [])]) "" = [] := by
  refine ⟨fun path => by simp [errorFindings], fun path => rfl, fun path => rfl,
    ?_, ?_, ?_⟩ <;> rfl

theorem errorsElems_mem_message (path : String) :
    ∀ (es : List Json) (j i : Nat) (em : List (String × Json)) (m : String),
      es[i]? = some (.obj em) → lookup "message" em = some (.str m) →
      ("Error at " ++ rootLoc path ++ "[" ++ toString (j + i) ++ "]: " ++ m)
        ∈ errorsElems path j es := by
  intro es
  induction es with
  | nil => intro j i em m h _; simp at h
  | cons e rest ih =>
      intro j i em m h hm
      cases i with
      | zero =>
          rw [List.getElem?_cons_zero, Option.some_inj] at h
          subst h
          simp [errorsElems, hm]
      | succ i' =>
          rw [List.getElem?_cons_succ] at h
          have hmem := ih (j + 1) i' em m h hm
          have harith : j + (i' + 1) = (j + 1) + i' := by omega
          rw [harith]
          exact List.mem_append_right _ hmem

theorem errorsElems_mem_nomsg (path : String) :
    ∀ (es : List Json) (j i : Nat) (em : List (String × Json)),
      es[i]? = some (.obj em) → (∀ s, lookup "message" em ≠ some (.str s)) →
      ("Error at " ++ path ++ "[" ++ toString (j + i) ++ "]: " ++ goRender (.obj em))
        ∈ errorsElems path j es := by
  intro es
  induction es with
  | nil => intro j i em h _; simp at h
  | cons e rest ih =>
      intro j i em h hm
      cases i with
      | zero =>
          rw [List.getElem?_cons_zero, Option.some_inj] at h
          subst h
          cases hl : lookup "message" em with
          | none => simp [errorsElems, hl]
          | some v =>
              cases v with
              | str s => exact absurd hl (hm s)
              | null => simp [errorsElems, hl]
              | bool b => simp [errorsElems, hl]
              | num n => simp [errorsElems, hl]
              | arr xs => simp [errorsElems, hl]
              | obj kvs => simp [errorsElems, hl]
      | succ i' =>
          rw [List.getElem?_cons_succ] at h
          have hmem := ih (j + 1) i' em h hm
          have harith : j + (i' + 1) = (j + 1) + i' := by omega
          rw [harith]
          exact List.mem_append_right _ hmem

theorem errorsFindings_mem_of_elem (path : String) (es : List Json) (msg : String)
    (hne : es.isEmpty = false) (hmem : msg ∈ errorsElems path 0 es) :
    msg ∈ errorsFindings path (some (.arr es)) := by
  simp [errorsFindings, hne]
  exact hmem

/-- C1: whenever a mapping directly carries `"errors"` bound to an array,
each element at index `i` that is a mapping with a string-valued
`"message"` contributes the finding
`Error at <path>[<i>]: <message>` — with `root` substituted for the empty
path — to the scan of that mapping; in particular scanning
`{"errors": [{"message": "x"}, {"message": "y"}]}` at top level yields
exactly `["Error at root[0]: x", "Error at root[1]: y"]` in order. -/
theorem errors_array_message_findings :
    (∀ (kvs : List (String × Json)) (path : String) (es : List Json) (i : Nat)
        (em : List (String × Json)) (m : String),
      lookup "errors" kvs = some (.arr es) → es[i]? = some (.obj em) →
      lookup "message" em = some (.str m) →
      ("Error at " ++ rootLoc path ++ "[" ++ toString i ++ "]: " ++ m)
        ∈ collectErrors (.obj kvs) path) ∧
    collectErrors (.obj [("errors", .arr [.obj [("message", .str "x")],
        .obj [("message", .str "y")]])]) ""
      = ["Error at root[0]: x", "Error at root[1]: y"] := by
  constructor
  · intro kvs path es i em m hlk hel hm
    have hmem := errorsElems_mem_message path es 0 i em m hel hm
    rw [Nat.zero_add] at hmem
    have hne : es.isEmpty = false := by
      cases es
      · simp at hel
      · rfl
    rw [collectErrors, hlk]
    exact List.mem_append_left _
      (List.mem_append_left _ (errorsFindings_mem_of_elem path es _ hne hmem))
  · rfl

/-- C1 witness: the general finding rule instantiated on
`{"errors": [{"message": "x"}]}` at the empty path. -/
theorem errors_array_message_findings_witness :
    "Error at root[0]: x"
      ∈ collectErrors (.obj [("errors", .arr [.obj [("message", .str "x")]])]) "" := by
  have h := errors_array_message_findings.1
    [("errors", .arr [.obj [("message", .str "x")]])] ""
    [.obj [("message", .str "x")]] 0 [("message", .str "x")] "x" rfl rfl rfl
  have e : ("Error at " ++ rootLoc "" ++ "[" ++ toString (0 : Nat) ++ "]: " ++ "x")
      = "Error at root[0]: x" := by decide
  rw [e] at h
  exact h

/-- C2 counterexample: in `{"errors": [42]}` the single element of the
`"errors"` array is not a mapping, and the scanner emits nothing for it —
the whole scan is empty and in particular contains no
`Error at root[0]: 42` finding, contradicting the claim that every
non-conforming element still produces a finding. -/
theorem errors_array_nonmap_element_no_finding :
    collectErrors (.obj [("errors", .arr [.num 42])]) "" = [] ∧
    "Error at root[0]: 42" ∉ collectErrors (.obj [("errors", .arr [.num 42])]) "" := by
  decide

/-- C2 (amended): of the elements of a directly-contained `"errors"`
array that are not mappings with a string-valued `"message"`, only those
that are themselves mappings produce a finding, and its message is
`Error at <path>[<i>]: <Go %v rendering>` with the raw walk path (empty,
not `root`, at top level); non-mapping elements produce no finding, as the
counterexample shows. In particular
`{"errors": [{"foo": 1}]}` yields exactly `["Error at [0]: map[foo:1]"]`. -/
theorem errors_array_nonmessage_map_findings :
    (∀ (kvs : List (String × Json)) (path : String) (es : List Json) (i : Nat)
        (em : List (String × Json)),
      lookup "errors" kvs = some (.arr es) → es[i]? = some (.obj em) →
      (∀ s, lookup "message" em ≠ some (.str s)) →
      ("Error at " ++ path ++ "[" ++ toString i ++ "]: " ++ goRender (.obj em))
        ∈ collectErrors (.obj kvs) path) ∧
    collectErrors (.obj [("errors", .arr [.obj [("foo", .num 1)]])]) ""
      = ["Error at [0]: map[foo:1]"] := by
  constructor
  · intro kvs path es i em hlk hel hm
    have hmem := errorsElems_mem_nomsg path es 0 i em hel hm
    rw [Nat.zero_add] at hmem
    have hne : es.isEmpty = false := by
      cases es
      · simp at hel
      · rfl
    rw [collectErrors, hlk]
    exact List.mem_append_left _
      (List.mem_append_left _ (errorsFindings_mem_of_elem path es _ hne hmem))
  · rfl

/-- C2 witness: the amended rule instantiated on `{"errors": [{"foo": 1}]}`
at the empty path. -/
theorem errors_array_nonmessage_map_findings_witness :
    "Error at [0]: map[foo:1]"
      ∈ collectErrors (.obj [("errors", .arr [.obj [("foo", .num 1)]])]) "" := by
  have h := errors_array_nonmessage_map_findings.1
    [("errors", .arr [.obj [("foo", .num 1)]])] ""
    [.obj [("foo", .num 1)]] 0 [("foo", .num 1)]
    rfl rfl (by intro s hs; simp [lookup] at hs)
  have e : ("Error at " ++ "" ++ "[" ++ toString (0 : Nat) ++ "]: "
      ++ goRender (.obj [("foo", .num 1)])) = "Error at [0]: map[foo:1]" := by decide
  rw [e] at h
  exact h

/-- C7 counterexample: a configuration-load failure makes `runValidate`
return an error and `Execute` exit with code `1` — exactly the code used
to signal query-validation failures, not a distinct one. -/
theorem setup_failure_exit_equals_validation_exit :
    executeExit (runValidateOutcome (.configLoadFailed "no such file") oneFailSummary) = 1 ∧
    executeExit (runValidateOutcome .ready oneFailSummary) = 1 := by
  decide

/-- C7 (amended): each setup failure — configuration unreadable,
configuration invalid, database/GraphJin initialization failed — exits with
a non-zero code, but that code is `1`, the same code produced when
validations fail; no distinct setup-failure code exists. -/
theorem setup_failure_exit_code :
    ∀ (m : String) (s s' : ValidationSummary),
      executeExit (runValidateOutcome (.configLoadFailed m) s) = 1 ∧
      executeExit (runValidateOutcome (.configInvalid m) s) = 1 ∧
      executeExit (runValidateOutcome (.dbInitFailed m) s) = 1 ∧
      executeExit (runValidateOutcome (.configLoadFailed m) s) ≠ 0 ∧
      (0 < s'.failed →
        executeExit (runValidateOutcome (.configLoadFailed m) s)
          = executeExit (runValidateOutcome .ready s')) := by
  intro m s s'
  refine ⟨rfl, rfl, rfl, by simp [executeExit, runValidateOutcome], ?_⟩
  intro h
  simp [executeExit, runValidateOutcome, runValidateErr, h]

/-- C7 witness: with a failing summary, the setup-failure exit code
coincides with the validation-failure exit code. -/
theorem setup_failure_exit_code_witness :
    executeExit (runValidateOutcome (.configLoadFailed "boom") oneFailSummary)
      = executeExit (runValidateOutcome .ready oneFailSummary) :=
  (setup_failure_exit_code "boom" oneFailSummary oneFailSummary).2.2.2.2 (by decide)

theorem errorsKeyTrig_of_findings (kvs : List (String × Json)) (path : String) :
    errorsFindings path (lookup "errors" kvs) ≠ [] → errorsKeyTrig kvs = true := by
  intro h
  cases hl : lookup "errors" kvs with
  | none => rw [hl] at h; exact absurd rfl h
  | some v =>
      rw [hl] at h
      cases v with
      | arr es => simp [errorsKeyTrig, hl]
      | null => exact absurd rfl h
      | bool b => exact absurd rfl h
      | num n => exact absurd rfl h
      | str s => exact absurd rfl h
      | obj kvs' => exact absurd rfl h

theorem errorKeyTrig_of_findings (kvs : List (String × Json)) (path : String) :
    errorFindings path (lookup "error" kvs) ≠ [] → errorKeyTrig kvs = true := by
  intro h
  cases hl : lookup "error" kvs with
  | none => rw [hl] at h; exact absurd rfl h
  | some v =>
      rw [hl] at h
      cases v with
      | str s =>
          by_cases hs : s = ""
          · subst hs; simp [errorFindings] at h
          · simp [errorKeyTrig, hl, errorTruthy, hs]
      | obj em => simp [errorKeyTrig, hl, errorTruthy]
      | null => exact absurd rfl h
      | bool b => exact absurd rfl h
      | num n => exact absurd rfl h
      | arr xs => exact absurd rfl h

mutual

theorem collectErrors_sound : ∀ (j : Json) (path : String),
    collectErrors j path ≠ [] → checkForErrors j = true
  | .null, _, h => by simp [collectErrors] at h
  | .bool b, _, h => by simp [collectErrors] at h
  | .num n, _, h => by simp [collectErrors] at h
  | .str s, _, h => by simp [collectErrors] at h
  | .arr xs, path, h => by
      simp only [collectErrors] at h
      simp only [checkForErrors]
      exact collectArr_sound xs path 0 h
  | .obj kvs, path, h => by
      simp only [collectErrors] at h
      simp only [checkForErrors]
      by_cases hA : errorsFindings path (lookup "errors" kvs) = []
      · by_cases hB : errorFindings path (lookup "error" kvs) = []
        · have hC : collectObj kvs path ≠ [] := by
            intro hc
            exact h (by rw [hA, hB, hc]; rfl)
          rw [collectObj_sound kvs path hC]
          simp
        · rw [errorKeyTrig_of_findings kvs path hB]
          simp
      · rw [errorsKeyTrig_of_findings kvs path hA]
        simp

theorem collectObj_sound : ∀ (kvs : List (String × Json)) (path : String),
    collectObj kvs path ≠ [] → checkObjAny kvs = true
  | [], _, h => by simp [collectObj] at h
  | kv :: rest, path, h => by
      simp only [collectObj] at h
      simp only [checkObjAny]
      by_cases h1 : collectErrors kv.2 (childPath path kv.1) = []
      · have h2 : collectObj rest path ≠ [] := by
          intro hc
          exact h (by rw [h1, hc]; rfl)
        rw [collectObj_sound rest path h2]
        simp
      · rw [collectErrors_sound kv.2 _ h1]
        simp

theorem collectArr_sound : ∀ (xs : List Json) (path : String) (i : Nat),
    collectArr xs path i ≠ [] → checkArrAny xs = true
  | [], _, _, h => by simp [collectArr] at h
  | x :: rest, path, i, h => by
      simp only [collectArr] at h
      simp only [checkArrAny]
      by_cases h1 : collectErrors x (path ++ "[" ++ toString i ++ "]") = []
      · have h2 : collectArr rest path (i + 1) ≠ [] := by
          intro hc
          exact h (by rw [h1, hc]; rfl)
        rw [collectArr_sound rest path (i + 1) h2]
        simp
      · rw [collectErrors_sound x _ h1]
        simp

end

/-- C9 counterexample: on the payload `{"errors": []}` the boolean scanner
`hasNestedErrors` reports true (any non-nil `"errors"` value triggers it)
while `findNestedErrors` yields no message (the empty array is suppressed),
refuting the claimed equivalence of the two detectors. -/
theorem nested_error_detectors_disagree :
    hasNestedErrors (.value (.obj [("errors", .arr [])])) = true ∧
    findNestedErrors (.value (.obj [("errors", .arr [])])) = [] := by
  decide

/-- C9 (amended): the two detectors agree in one direction only: every
decoded value on which `collectErrors` produces a finding satisfies
`checkForErrors`, so for a payload decoding to a top-level object a
non-empty `findNestedErrors` result forces `hasNestedErrors` to be true;
the converse direction is refuted by the counterexample. -/
theorem findNestedErrors_nonempty_implies_hasNestedErrors :
    (∀ (j : Json), collectErrors j "" ≠ [] → checkForErrors j = true) ∧
    (∀ (kvs : List (String × Json)),
      findNestedErrors (.value (.obj kvs)) ≠ [] →
      hasNestedErrors (.value (.obj kvs)) = true) := by
  refine ⟨fun j h => collectErrors_sound j "" h, fun kvs h => ?_⟩
  simp only [findNestedErrors] at h
  simp only [hasNestedErrors]
  exact collectErrors_sound _ "" h

/-- C9 witness: `{"error": "x"}` produces a finding, and the boolean
scanner indeed reports true on it. -/
theorem findNestedErrors_nonempty_implies_hasNestedErrors_witness :
    hasNestedErrors (.value (.obj [("error", .str "x")])) = true :=
  findNestedErrors_nonempty_implies_hasNestedErrors.2
    [("error", .str "x")] (by decide)

theorem lookup_eq_of_perm (k : String) :
    ∀ {l₁ l₂ : List (String × Json)}, l₁.Perm l₂ →
      (l₁.map Prod.fst).Nodup → lookup k l₁ = lookup k l₂ := by
  intro l₁ l₂ hp
  induction hp with
  | nil => intro _; rfl
  | cons x p ih =>
      intro hnd
      simp only [List.map_cons, List.nodup_cons] at hnd
      simp only [lookup]
      by_cases hx : x.1 = k
      · simp [hx]
      · simp [hx, ih hnd.2]
  | swap x y l =>
      intro hnd
      simp only [List.map_cons, List.nodup_cons, List.mem_cons, not_or] at hnd
      obtain ⟨⟨hyx, _⟩, _⟩ := hnd
      simp only [lookup]
      by_cases hy : y.1 = k
      · by_cases hx : x.1 = k
        · exact absurd (hy.trans hx.symm) hyx
        · simp [hy, hx]
      · by_cases hx : x.1 = k
        · simp [hy, hx]
        · simp [hy, hx]
  | trans p₁ p₂ ih₁ ih₂ =>
      intro hnd
      have hnd₂ := (p₁.map Prod.fst).nodup hnd
      rw [ih₁ hnd, ih₂ hnd₂]

theorem collectObj_perm (path : String) :
    ∀ {l₁ l₂ : List (String × Json)}, l₁.Perm l₂ →
      (collectObj l₁ path).Perm (collectObj l₂ path) := by
  intro l₁ l₂ hp
  induction hp with
  | nil => exact List.Perm.refl _
  | cons x p ih =>
      simp only [collectObj]
      exact List.Perm.append_left _ ih
  | swap x y l =>
      simp only [collectObj, ← List.append_assoc]
      exact List.Perm.append_right _ List.perm_append_comm
  | trans p₁ p₂ ih₁ ih₂ => exact ih₁.trans ih₂

/-- C8 counterexample: the mapping `{"a": {"error": "x"}, "b": {"error": "y"}}`
presented in its two key iteration orders — which Go's randomized map
iteration makes two runs of `collectErrors` on the same decoded value —
yields two different ordered finding lists, refuting the claimed stable
order within and across runs. -/
theorem collectErrors_order_sensitive :
    ([("a", Json.obj [("error", Json.str "x")]),
      ("b", Json.obj [("error", Json.str "y")])] : List (String × Json)).Perm
      [("b", Json.obj [("error", Json.str "y")]),
       ("a", Json.obj [("error", Json.str "x")])] ∧
    collectErrors
        (.obj [("a", .obj [("error", .str "x")]), ("b", .obj [("error", .str "y")])]) ""
      ≠ collectErrors
        (.obj [("b", .obj [("error", .str "y")]), ("a", .obj [("error", .str "x")])]) "" := by
  constructor
  · exact List.Perm.swap _ _ _
  · decide

/-- C8 (amended): `collectErrors` is a pure function of the decoded value
together with a key iteration order, so it is deterministic for a fixed
order; across the randomized iteration orders Go produces for the same
mapping, the finding lists are permutations of one another — the relative
order of findings under different keys may change between runs, but never
the multiset of messages. -/
theorem collectErrors_perm_stable :
    ∀ (l₁ l₂ : List (String × Json)) (path : String),
      l₁.Perm l₂ → (l₁.map Prod.fst).Nodup →
      (collectErrors (.obj l₁) path).Perm (collectErrors (.obj l₂) path) := by
  intro l₁ l₂ path hp hnd
  simp only [collectErrors]
  rw [lookup_eq_of_perm "errors" hp hnd, lookup_eq_of_perm "error" hp hnd]
  exact List.Perm.append_left _ (collectObj_perm path hp)

/-- C8 witness: the two iteration orders of the counterexample mapping
produce finding lists that are permutations of each other. -/
theorem collectErrors_perm_stable_witness :
    (collectErrors
        (.obj [("a", .obj [("error", .str "x")]), ("b", .obj [("error", .str "y")])]) "").Perm
      (collectErrors
        (.obj [("b", .obj [("error", .str "y")]), ("a", .obj [("error", .str "x")])]) "") :=
  collectErrors_perm_stable _ _ "" (List.Perm.swap _ _ _) (by decide)
